import Mathlib

/-!
Verification of the time-bounded memoization layer in `src/edhrec/caching.py`
(`generate_wrapped_func` and the per-endpoint decorators built from it).

The embedding is shallow:
* positional arguments are a `List String`, keyword arguments an ordered
  association list `List (String × String)` (Python kwargs in textual order);
* the cache dictionary is an association list from derived keys to entries;
* `datetime.now(timezone.utc)` is an explicit `now : Nat` parameter (seconds);
* the wrapped function is `fn : Args → Kwargs → Except E V`, where
  `Except.error` models a raised exception propagating through the wrapper;
* the wrapper returns `(Option (Except E V)) × Cache V × Bool`: the first
  component is `none` only on the (unreachable) `KeyError` of reading a key
  that is absent, `some (Except.error e)` when `fn` raised, `some (Except.ok v)`
  on a normal return; the second is the cache after the call; the third
  records whether `fn` was invoked during the call.
-/

namespace Edhrec

/-- Positional arguments of one call (`*args`). -/
abbrev Args := List String

/-- One keyword binding (`name=value`). -/
abbrev Kwarg := String × String

/-- Keyword arguments of one call in textual order (`**kwargs`). -/
abbrev Kwargs := List Kwarg

/-- Comparison used by `sorted(kwargs.items())`: Python compares the
`(name, value)` tuples lexicographically, the name first and then the value,
and compares strings by their code-point sequences. -/
def kwargLe (x y : Kwarg) : Prop :=
  x.1.data < y.1.data ∨ (x.1.data = y.1.data ∧ (x.2.data < y.2.data ∨ x.2.data = y.2.data))

instance : DecidableRel kwargLe := fun x y => by
  unfold kwargLe; infer_instance

instance : IsTotal Kwarg kwargLe := by
  constructor
  intro x y
  rcases lt_trichotomy x.1.data y.1.data with h | h | h
  · exact Or.inl (Or.inl h)
  · rcases lt_trichotomy x.2.data y.2.data with h₂ | h₂ | h₂
    · exact Or.inl (Or.inr ⟨h, Or.inl h₂⟩)
    · exact Or.inl (Or.inr ⟨h, Or.inr h₂⟩)
    · exact Or.inr (Or.inr ⟨h.symm, Or.inl h₂⟩)
  · exact Or.inr (Or.inl h)

instance : IsTrans Kwarg kwargLe := by
  constructor
  rintro x y z (h₁ | ⟨e₁, h₁⟩) (h₂ | ⟨e₂, h₂⟩)
  · exact Or.inl (lt_trans h₁ h₂)
  · exact Or.inl (lt_of_lt_of_le h₁ (le_of_eq e₂))
  · exact Or.inl (lt_of_le_of_lt (le_of_eq e₁) h₂)
  · refine Or.inr ⟨e₁.trans e₂, ?_⟩
    rcases h₁ with h₁ | h₁ <;> rcases h₂ with h₂ | h₂
    · exact Or.inl (lt_trans h₁ h₂)
    · exact Or.inl (lt_of_lt_of_le h₁ (le_of_eq h₂))
    · exact Or.inl (lt_of_le_of_lt (le_of_eq h₁) h₂)
    · exact Or.inr (h₁.trans h₂)

instance : IsAntisymm Kwarg kwargLe := by
  constructor
  rintro ⟨a, b⟩ ⟨c, d⟩ (h₁ | ⟨e₁, h₁⟩) (h₂ | ⟨e₂, h₂⟩)
  · exact absurd h₂ (lt_asymm h₁)
  · rw [e₂] at h₁; exact absurd h₁ (lt_irrefl _)
  · rw [e₁] at h₂; exact absurd h₂ (lt_irrefl _)
  · have hb : b.data = d.data := by
      rcases h₁ with h₁ | h₁ <;> rcases h₂ with h₂ | h₂
      · exact absurd h₂ (lt_asymm h₁)
      · rw [h₂] at h₁; exact absurd h₁ (lt_irrefl _)
      · rw [h₁] at h₂; exact absurd h₂ (lt_irrefl _)
      · exact h₁
    exact Prod.ext (String.toList_inj.mp e₁) (String.toList_inj.mp hb)

/-- `sorted(kwargs.items())` from line 8 of `caching.py`. -/
def sortKwargs (l : Kwargs) : Kwargs := List.insertionSort kwargLe l

/-- A derived cache key: `(args, tuple(sorted(kwargs.items())))`. -/
abbrev CacheKey := Args × Kwargs

/-- Key derivation from line 8 of `caching.py`. -/
def cacheKey (args : Args) (kwargs : Kwargs) : CacheKey :=
  (args, sortKwargs kwargs)

/-- One cache entry, the dict `{"result": ..., "expiry": ...}` written on
lines 13 and 19 of `caching.py`. -/
structure Entry (V : Type) where
  result : V
  expiry : Nat
  deriving Repr, DecidableEq

/-- The cache dictionary of one wrapped function, as an association list. -/
abbrev Cache (V : Type) := List (CacheKey × Entry V)

namespace Cache

variable {V : Type}

/-- Dictionary lookup: `cache[key]` / `key in cache`. -/
def find? (c : Cache V) (k : CacheKey) : Option (Entry V) :=
  match c with
  | [] => none
  | (k', e) :: rest => if k' = k then some e else find? rest k

/-- Dictionary assignment `cache[key] = entry`: replaces the binding for
`k` when present, appends it otherwise. -/
def insert (c : Cache V) (k : CacheKey) (e : Entry V) : Cache V :=
  match c with
  | [] => [(k, e)]
  | (k', e') :: rest => if k' = k then (k, e) :: rest else (k', e') :: insert rest k e

end Cache

variable {V E : Type}

/-- The closure `wrapper` produced by `generate_wrapped_func` (lines 6–20 of
`caching.py`), with the clock made an explicit `now` parameter and the cache
threaded as explicit state.  The returned triple is
(returned value or propagated error, cache after the call, whether
`function` was invoked).  The key-present expired branch re-reads
`cache[cache_key].get("result")` from the mutated cache, exactly as line 15
does after the overwrite on line 13. -/
def wrapper (fn : Args → Kwargs → Except E V) (cache : Cache V) (now : Nat)
    (args : Args) (kwargs : Kwargs) :
    Option (Except E V) × Cache V × Bool :=
  let cache_key := cacheKey args kwargs
  match Cache.find? cache cache_key with
  | some entry =>
    if entry.expiry ≤ now then
      match fn args kwargs with
      | Except.error e => (some (Except.error e), cache, true)
      | Except.ok result =>
        let cache' := Cache.insert cache cache_key ⟨result, now + 86400⟩
        ((Cache.find? cache' cache_key).map (fun en => Except.ok en.result),
          cache', true)
    else
      ((Cache.find? cache cache_key).map (fun en => Except.ok en.result),
        cache, false)
  | none =>
    match fn args kwargs with
    | Except.error e => (some (Except.error e), cache, true)
    | Except.ok result =>
      let cache' := Cache.insert cache cache_key ⟨result, now + 86400⟩
      (some (Except.ok result), cache', true)

/-- The variant of `wrapper` the spec's design note asks for: identical
control flow, but the expired branch returns the just-computed `result`
directly and the fresh branch returns `entry.result` directly, instead of
re-reading `cache[cache_key]` after the mutation.  This definition follows
the spec's words ("return the computed result"), to be compared with
`wrapper`, which follows the code. -/
def wrapperDirect (fn : Args → Kwargs → Except E V) (cache : Cache V)
    (now : Nat) (args : Args) (kwargs : Kwargs) :
    Option (Except E V) × Cache V × Bool :=
  let cache_key := cacheKey args kwargs
  match Cache.find? cache cache_key with
  | some entry =>
    if entry.expiry ≤ now then
      match fn args kwargs with
      | Except.error e => (some (Except.error e), cache, true)
      | Except.ok result =>
        (some (Except.ok result),
          Cache.insert cache cache_key ⟨result, now + 86400⟩, true)
    else
      (some (Except.ok entry.result), cache, false)
  | none =>
    match fn args kwargs with
    | Except.error e => (some (Except.error e), cache, true)
    | Except.ok result =>
      (some (Except.ok result),
        Cache.insert cache cache_key ⟨result, now + 86400⟩, true)

/-- A wrapped function together with the private cache it closes over. -/
structure Wrapped (V E : Type) where
  fn : Args → Kwargs → Except E V
  cache : Cache V

/-- One call to a wrapped function: runs `wrapper` on the private cache and
keeps the updated cache. -/
def Wrapped.call (w : Wrapped V E) (now : Nat) (args : Args)
    (kwargs : Kwargs) : Option (Except E V) × Wrapped V E × Bool :=
  let r := wrapper w.fn w.cache now args kwargs
  (r.1, ⟨w.fn, r.2.1⟩, r.2.2)

/-- The decorator `commander_cache` (lines 25–28 of `caching.py`): a fresh
empty cache is created at wrap time. -/
def commander_cache (func : Args → Kwargs → Except E V) : Wrapped V E :=
  ⟨func, []⟩

/-- The decorator `card_detail_cache` (lines 31–34 of `caching.py`). -/
def card_detail_cache (func : Args → Kwargs → Except E V) : Wrapped V E :=
  ⟨func, []⟩

/-- The decorator `combo_cache` (lines 37–40 of `caching.py`). -/
def combo_cache (func : Args → Kwargs → Except E V) : Wrapped V E :=
  ⟨func, []⟩

/-- The decorator `average_deck_cache` (lines 43–46 of `caching.py`). -/
def average_deck_cache (func : Args → Kwargs → Except E V) : Wrapped V E :=
  ⟨func, []⟩

/-- The decorator `deck_cache` (lines 49–52 of `caching.py`). -/
def deck_cache (func : Args → Kwargs → Except E V) : Wrapped V E :=
  ⟨func, []⟩

/-- One call of an interleaved client session using two independently
wrapped functions. -/
inductive SysCall : Type where
  | first (now : Nat) (args : Args) (kwargs : Kwargs)
  | second (now : Nat) (args : Args) (kwargs : Kwargs)

variable {W F : Type}

/-- Executing one interleaved call: each wrapped function's call touches only
its own closed-over cache, as in the Python closures. -/
def stepSys (p : Wrapped V E × Wrapped W F) : SysCall → Wrapped V E × Wrapped W F
  | SysCall.first now args kwargs => ((p.1.call now args kwargs).2.1, p.2)
  | SysCall.second now args kwargs => (p.1, (p.2.call now args kwargs).2.1)

/-- Executing an interleaved call sequence against two wrapped functions. -/
def runSys (p : Wrapped V E × Wrapped W F) : List SysCall → Wrapped V E × Wrapped W F
  | [] => p
  | c :: rest => runSys (stepSys p c) rest

/-- Executing a call sequence against a single wrapped function. -/
def runOne (w : Wrapped V E) : List (Nat × Args × Kwargs) → Wrapped V E
  | [] => w
  | (now, args, kwargs) :: rest => runOne (w.call now args kwargs).2.1 rest

/-- The calls an interleaved session addresses to the first wrapped function. -/
def firstCalls : List SysCall → List (Nat × Args × Kwargs)
  | [] => []
  | SysCall.first now args kwargs :: rest => (now, args, kwargs) :: firstCalls rest
  | SysCall.second _ _ _ :: rest => firstCalls rest

/-- The calls an interleaved session addresses to the second wrapped function. -/
def secondCalls : List SysCall → List (Nat × Args × Kwargs)
  | [] => []
  | SysCall.first _ _ _ :: rest => secondCalls rest
  | SysCall.second now args kwargs :: rest => (now, args, kwargs) :: secondCalls rest

namespace Cache

@[simp] theorem find?_nil (k : CacheKey) : find? ([] : Cache V) k = none := rfl

@[simp] theorem find?_insert_self (c : Cache V) (k : CacheKey) (e : Entry V) :
    find? (insert c k e) k = some e := by
  induction c with
  | nil => simp [insert, find?]
  | cons hd tl ih =>
    obtain ⟨k', e'⟩ := hd
    by_cases h : k' = k
    · simp [insert, find?, h]
    · simp [insert, find?, h, ih]

theorem find?_insert_ne (c : Cache V) (k k₂ : CacheKey) (e : Entry V)
    (h : k₂ ≠ k) : find? (insert c k e) k₂ = find? c k₂ := by
  have h' : k ≠ k₂ := Ne.symm h
  induction c with
  | nil => simp [insert, find?, h']
  | cons hd tl ih =>
    obtain ⟨k', e'⟩ := hd
    by_cases hk : k' = k
    · subst hk
      simp [insert, find?, h']
    · simp only [insert, if_neg hk, find?]
      by_cases hk₂ : k' = k₂
      · simp [hk₂]
      · simp [hk₂, ih]

end Cache

/-- Behaviour of the `else` branch (lines 16–20): key absent, `function`
returns normally. -/
theorem wrapper_miss_ok {fn : Args → Kwargs → Except E V} {c : Cache V}
    {now : Nat} {args : Args} {kwargs : Kwargs} {v : V}
    (hfind : Cache.find? c (cacheKey args kwargs) = none)
    (hfn : fn args kwargs = Except.ok v) :
    wrapper fn c now args kwargs =
      (some (Except.ok v),
        Cache.insert c (cacheKey args kwargs) ⟨v, now + 86400⟩, true) := by
  simp only [wrapper, hfind, hfn]

/-- Behaviour of the `else` branch when `function` raises: the exception
propagates before line 19 runs, so the cache is untouched. -/
theorem wrapper_miss_error {fn : Args → Kwargs → Except E V} {c : Cache V}
    {now : Nat} {args : Args} {kwargs : Kwargs} {e : E}
    (hfind : Cache.find? c (cacheKey args kwargs) = none)
    (hfn : fn args kwargs = Except.error e) :
    wrapper fn c now args kwargs = (some (Except.error e), c, true) := by
  simp only [wrapper, hfind, hfn]

/-- Behaviour of the key-present branch when the entry is still fresh
(line 10 test false, line 15): the stored result is returned, `function`
is not invoked, the cache is unchanged. -/
theorem wrapper_hit_fresh {fn : Args → Kwargs → Except E V} {c : Cache V}
    {now : Nat} {args : Args} {kwargs : Kwargs} {entry : Entry V}
    (hfind : Cache.find? c (cacheKey args kwargs) = some entry)
    (hlt : now < entry.expiry) :
    wrapper fn c now args kwargs = (some (Except.ok entry.result), c, false) := by
  simp only [wrapper, hfind, if_neg (not_le.mpr hlt), Option.map_some']

/-- Behaviour of the key-present branch when the entry has expired and
`function` returns normally (lines 10–15): the entry is overwritten and the
value re-read on line 15 is the just-stored one. -/
theorem wrapper_hit_expired_ok {fn : Args → Kwargs → Except E V} {c : Cache V}
    {now : Nat} {args : Args} {kwargs : Kwargs} {entry : Entry V} {v : V}
    (hfind : Cache.find? c (cacheKey args kwargs) = some entry)
    (hle : entry.expiry ≤ now)
    (hfn : fn args kwargs = Except.ok v) :
    wrapper fn c now args kwargs =
      (some (Except.ok v),
        Cache.insert c (cacheKey args kwargs) ⟨v, now + 86400⟩, true) := by
  simp only [wrapper, hfind, if_pos hle, hfn, Cache.find?_insert_self,
    Option.map_some']

/-- Behaviour of the key-present branch when the entry has expired and
`function` raises (line 11): the exception propagates before line 13 runs,
so the stale entry is kept as it was. -/
theorem wrapper_hit_expired_error {fn : Args → Kwargs → Except E V}
    {c : Cache V} {now : Nat} {args : Args} {kwargs : Kwargs}
    {entry : Entry V} {e : E}
    (hfind : Cache.find? c (cacheKey args kwargs) = some entry)
    (hle : entry.expiry ≤ now)
    (hfn : fn args kwargs = Except.error e) :
    wrapper fn c now args kwargs = (some (Except.error e), c, true) := by
  simp only [wrapper, hfind, if_pos hle, hfn]

/-- Two permutations of the same keyword bindings derive the same cache key:
`sorted` maps them to the same sorted tuple. -/
theorem cacheKey_perm (args : Args) {kwargs₁ kwargs₂ : Kwargs}
    (hperm : kwargs₁.Perm kwargs₂) :
    cacheKey args kwargs₁ = cacheKey args kwargs₂ := by
  unfold cacheKey sortKwargs
  refine congrArg _ ?_
  refine List.eq_of_perm_of_sorted ?_ (List.sorted_insertionSort kwargLe kwargs₁)
    (List.sorted_insertionSort kwargLe kwargs₂)
  exact ((List.perm_insertionSort kwargLe kwargs₁).trans hperm).trans
    (List.perm_insertionSort kwargLe kwargs₂).symm

/-- In any interleaved session of two wrapped functions, each component's
final state is the state obtained by running only its own calls: the other
function's calls neither read nor write it. -/
theorem runSys_components :
    ∀ (calls : List SysCall) (p : Wrapped V E × Wrapped W F),
    (runSys p calls).1 = runOne p.1 (firstCalls calls) ∧
    (runSys p calls).2 = runOne p.2 (secondCalls calls) := by
  intro calls
  induction calls with
  | nil => intro p; exact ⟨rfl, rfl⟩
  | cons hd tl ih =>
    intro p
    cases hd with
    | first now args kwargs =>
      have h := ih (stepSys p (SysCall.first now args kwargs))
      simpa [runSys, stepSys, firstCalls, secondCalls, runOne] using h
    | second now args kwargs =>
      have h := ih (stepSys p (SysCall.second now args kwargs))
      simpa [runSys, stepSys, firstCalls, secondCalls, runOne] using h

/-- C1.  Idempotent cache hit: with the key initially absent and the wrapped
function returning `v`, the first call invokes the function once, stores
`⟨v, now + 86400⟩`, and returns `v`; a second call with identical arguments at
any time strictly before the expiry returns the stored `v` from the cache
without invoking the function again and leaves the cache unchanged. -/
theorem idempotent_hit (fn : Args → Kwargs → Except E V) (c : Cache V)
    (now now' : Nat) (args : Args) (kwargs : Kwargs) (v : V)
    (hfind : Cache.find? c (cacheKey args kwargs) = none)
    (hfn : fn args kwargs = Except.ok v)
    (hfresh : now' < now + 86400) :
    wrapper fn c now args kwargs =
      (some (Except.ok v),
        Cache.insert c (cacheKey args kwargs) ⟨v, now + 86400⟩, true) ∧
    wrapper fn (Cache.insert c (cacheKey args kwargs) ⟨v, now + 86400⟩)
        now' args kwargs =
      (some (Except.ok v),
        Cache.insert c (cacheKey args kwargs) ⟨v, now + 86400⟩, false) :=
  ⟨wrapper_miss_ok hfind hfn,
   wrapper_hit_fresh (Cache.find?_insert_self c (cacheKey args kwargs) _) hfresh⟩

/-- Witness for C1 at a concrete input. -/
theorem idempotent_hit_witness :
    wrapper (fun _ _ => (Except.ok 7 : Except Unit Nat)) [] 0 ["ana"] [] =
      (some (Except.ok 7),
        Cache.insert [] (cacheKey ["ana"] []) ⟨7, 0 + 86400⟩, true) ∧
    wrapper (fun _ _ => (Except.ok 7 : Except Unit Nat))
        (Cache.insert [] (cacheKey ["ana"] []) ⟨7, 0 + 86400⟩) 100 ["ana"] [] =
      (some (Except.ok 7),
        Cache.insert [] (cacheKey ["ana"] []) ⟨7, 0 + 86400⟩, false) :=
  idempotent_hit (fun _ _ => Except.ok 7) [] 0 100 ["ana"] [] 7 rfl rfl
    (by decide)

/-- C2.  Expiry boundary: with the key present, the function is re-invoked
exactly when `now ≥ entry.expiry`; in that case the entry is overwritten with
the new result and expiry `now + 86400` and the new result is returned, while
at a time strictly before expiry the stored result is returned and the
function is not invoked. -/
theorem expiry_boundary (fn : Args → Kwargs → Except E V) (c : Cache V)
    (now : Nat) (args : Args) (kwargs : Kwargs) (entry : Entry V) (v : V)
    (hfind : Cache.find? c (cacheKey args kwargs) = some entry)
    (hfn : fn args kwargs = Except.ok v) :
    (entry.expiry ≤ now →
      wrapper fn c now args kwargs =
        (some (Except.ok v),
          Cache.insert c (cacheKey args kwargs) ⟨v, now + 86400⟩, true)) ∧
    (now < entry.expiry →
      wrapper fn c now args kwargs =
        (some (Except.ok entry.result), c, false)) :=
  ⟨fun hle => wrapper_hit_expired_ok hfind hle hfn,
   fun hlt => wrapper_hit_fresh hfind hlt⟩

/-- Witness for C2: at `now = 50` with expiry `50` (the boundary, `now ≥`
expiry) the function is re-invoked and the entry overwritten; at `now = 49`
the stored result is returned without invocation. -/
theorem expiry_boundary_witness :
    wrapper (fun _ _ => (Except.ok 9 : Except Unit Nat))
        [(cacheKey ["ana"] [], ⟨7, 50⟩)] 50 ["ana"] [] =
      (some (Except.ok 9),
        Cache.insert [(cacheKey ["ana"] [], ⟨7, 50⟩)] (cacheKey ["ana"] [])
          ⟨9, 50 + 86400⟩, true) ∧
    wrapper (fun _ _ => (Except.ok 9 : Except Unit Nat))
        [(cacheKey ["ana"] [], ⟨7, 50⟩)] 49 ["ana"] [] =
      (some (Except.ok 7), [(cacheKey ["ana"] [], ⟨7, 50⟩)], false) :=
  ⟨(expiry_boundary (fun _ _ => Except.ok 9) _ 50 ["ana"] [] ⟨7, 50⟩ 9
      (by simp [Cache.find?]) rfl).1 (by decide),
   (expiry_boundary (fun _ _ => Except.ok 9) _ 49 ["ana"] [] ⟨7, 50⟩ 9
      (by simp [Cache.find?]) rfl).2 (by decide)⟩

/-- C3.  Mutate-then-reread equivalence: the wrapper, whose expired branch
overwrites the entry and then falls through to re-read
`cache[cache_key].get("result")`, is extensionally equal to `wrapperDirect`,
the implementation that returns the just-computed result (resp. the found
entry's value) directly. -/
theorem wrapper_eq_wrapperDirect (fn : Args → Kwargs → Except E V)
    (c : Cache V) (now : Nat) (args : Args) (kwargs : Kwargs) :
    wrapper fn c now args kwargs = wrapperDirect fn c now args kwargs := by
  rcases hfind : Cache.find? c (cacheKey args kwargs) with _ | entry
  · simp only [wrapper, wrapperDirect, hfind]
  · by_cases hle : entry.expiry ≤ now
    · rcases hfn : fn args kwargs with e | v
      · simp only [wrapper, wrapperDirect, hfind, if_pos hle, hfn]
      · simp only [wrapper, wrapperDirect, hfind, if_pos hle, hfn,
          Cache.find?_insert_self, Option.map_some']
    · simp only [wrapper, wrapperDirect, hfind, if_neg hle, Option.map_some']

/-- C4.  Error atomicity: whenever the wrapped function is actually invoked
(key absent, or entry expired) and raises, the error propagates unmodified,
the cache is left exactly as it was, and a later call with the same key
(at any time `now' ≥ now`) invokes the function again instead of replaying a
cached failure. -/
theorem error_atomicity (fn : Args → Kwargs → Except E V) (c : Cache V)
    (now now' : Nat) (args : Args) (kwargs : Kwargs) (e : E)
    (hfn : fn args kwargs = Except.error e)
    (hmono : now ≤ now')
    (hinv : Cache.find? c (cacheKey args kwargs) = none ∨
      ∃ entry, Cache.find? c (cacheKey args kwargs) = some entry ∧
        entry.expiry ≤ now) :
    wrapper fn c now args kwargs = (some (Except.error e), c, true) ∧
    wrapper fn c now' args kwargs = (some (Except.error e), c, true) := by
  rcases hinv with hfind | ⟨entry, hfind, hle⟩
  · exact ⟨wrapper_miss_error hfind hfn, wrapper_miss_error hfind hfn⟩
  · exact ⟨wrapper_hit_expired_error hfind hle hfn,
      wrapper_hit_expired_error hfind (le_trans hle hmono) hfn⟩

/-- Witness for C4 at a concrete input. -/
theorem error_atomicity_witness :
    wrapper (fun _ _ => (Except.error "boom" : Except String Nat)) [] 0
        ["ana"] [] = (some (Except.error "boom"), [], true) ∧
    wrapper (fun _ _ => (Except.error "boom" : Except String Nat)) [] 5
        ["ana"] [] = (some (Except.error "boom"), [], true) :=
  error_atomicity (fun _ _ => Except.error "boom") [] 0 5 ["ana"] [] "boom"
    rfl (by decide) (Or.inl rfl)

/-- C5.  Keyword-order invariance: two calls whose keyword bindings are
permutations of each other derive the same cache key; consequently, after a
first call (key absent) the second call with the reordered keywords hits the
same entry and does not invoke the wrapped function again. -/
theorem kwarg_order_invariance (fn : Args → Kwargs → Except E V) (c : Cache V)
    (now now' : Nat) (args : Args) (kwargs₁ kwargs₂ : Kwargs) (v : V)
    (hperm : kwargs₁.Perm kwargs₂)
    (hfind : Cache.find? c (cacheKey args kwargs₁) = none)
    (hfn : fn args kwargs₁ = Except.ok v)
    (hfresh : now' < now + 86400) :
    cacheKey args kwargs₁ = cacheKey args kwargs₂ ∧
    wrapper fn c now args kwargs₁ =
      (some (Except.ok v),
        Cache.insert c (cacheKey args kwargs₁) ⟨v, now + 86400⟩, true) ∧
    wrapper fn (Cache.insert c (cacheKey args kwargs₁) ⟨v, now + 86400⟩)
        now' args kwargs₂ =
      (some (Except.ok v),
        Cache.insert c (cacheKey args kwargs₁) ⟨v, now + 86400⟩, false) := by
  have hkey := cacheKey_perm args hperm
  refine ⟨hkey, wrapper_miss_ok hfind hfn, ?_⟩
  have h₂ : Cache.find?
      (Cache.insert c (cacheKey args kwargs₁) ⟨v, now + 86400⟩)
      (cacheKey args kwargs₂) = some ⟨v, now + 86400⟩ := by
    rw [← hkey]
    exact Cache.find?_insert_self c (cacheKey args kwargs₁) _
  exact wrapper_hit_fresh h₂ hfresh

/-- Witness for C5 with the spec's example bindings, supplied in the two
textual orders. -/
theorem kwarg_order_invariance_witness :
    cacheKey ["ana"] [("bracket", "x"), ("tag", "y")] =
      cacheKey ["ana"] [("tag", "y"), ("bracket", "x")] ∧
    wrapper (fun _ _ => (Except.ok 3 : Except Unit Nat)) [] 0 ["ana"]
        [("bracket", "x"), ("tag", "y")] =
      (some (Except.ok 3),
        Cache.insert [] (cacheKey ["ana"] [("bracket", "x"), ("tag", "y")])
          ⟨3, 0 + 86400⟩, true) ∧
    wrapper (fun _ _ => (Except.ok 3 : Except Unit Nat))
        (Cache.insert [] (cacheKey ["ana"] [("bracket", "x"), ("tag", "y")])
          ⟨3, 0 + 86400⟩) 100 ["ana"] [("tag", "y"), ("bracket", "x")] =
      (some (Except.ok 3),
        Cache.insert [] (cacheKey ["ana"] [("bracket", "x"), ("tag", "y")])
          ⟨3, 0 + 86400⟩, false) :=
  kwarg_order_invariance (fun _ _ => Except.ok 3) [] 0 100 ["ana"]
    [("bracket", "x"), ("tag", "y")] [("tag", "y"), ("bracket", "x")] 3
    (by decide) rfl rfl (by decide)

/-- C6.  Argument sensitivity: different positional tuples derive different
keys; starting from an empty cache, each of the two calls invokes the
function once and populates its own entry, and both entries coexist
afterwards. -/
theorem arg_sensitivity (fn : Args → Kwargs → Except E V)
    (now now' : Nat) (args₁ args₂ : Args) (kwargs : Kwargs) (v₁ v₂ : V)
    (hne : args₁ ≠ args₂)
    (hfn₁ : fn args₁ kwargs = Except.ok v₁)
    (hfn₂ : fn args₂ kwargs = Except.ok v₂) :
    cacheKey args₁ kwargs ≠ cacheKey args₂ kwargs ∧
    wrapper fn [] now args₁ kwargs =
      (some (Except.ok v₁),
        Cache.insert [] (cacheKey args₁ kwargs) ⟨v₁, now + 86400⟩, true) ∧
    wrapper fn (Cache.insert [] (cacheKey args₁ kwargs) ⟨v₁, now + 86400⟩)
        now' args₂ kwargs =
      (some (Except.ok v₂),
        Cache.insert (Cache.insert [] (cacheKey args₁ kwargs) ⟨v₁, now + 86400⟩)
          (cacheKey args₂ kwargs) ⟨v₂, now' + 86400⟩, true) ∧
    Cache.find?
        (Cache.insert (Cache.insert [] (cacheKey args₁ kwargs) ⟨v₁, now + 86400⟩)
          (cacheKey args₂ kwargs) ⟨v₂, now' + 86400⟩)
        (cacheKey args₁ kwargs) = some ⟨v₁, now + 86400⟩ ∧
    Cache.find?
        (Cache.insert (Cache.insert [] (cacheKey args₁ kwargs) ⟨v₁, now + 86400⟩)
          (cacheKey args₂ kwargs) ⟨v₂, now' + 86400⟩)
        (cacheKey args₂ kwargs) = some ⟨v₂, now' + 86400⟩ := by
  have hkne : cacheKey args₁ kwargs ≠ cacheKey args₂ kwargs := fun h =>
    hne (congrArg Prod.fst h)
  refine ⟨hkne, wrapper_miss_ok rfl hfn₁, ?_, ?_, ?_⟩
  · refine wrapper_miss_ok ?_ hfn₂
    rw [Cache.find?_insert_ne [] (cacheKey args₁ kwargs) (cacheKey args₂ kwargs)
      _ (Ne.symm hkne)]
    rfl
  · rw [Cache.find?_insert_ne _ (cacheKey args₂ kwargs) (cacheKey args₁ kwargs)
      _ hkne]
    exact Cache.find?_insert_self [] (cacheKey args₁ kwargs) _
  · exact Cache.find?_insert_self _ (cacheKey args₂ kwargs) _

/-- Witness for C6 with the spec's "cardA"/"cardB" example. -/
theorem arg_sensitivity_witness :
    cacheKey ["cardA"] [] ≠ cacheKey ["cardB"] [] ∧
    wrapper (fun a _ => (Except.ok (if a = ["cardA"] then 1 else 2) :
        Except Unit Nat)) [] 0 ["cardA"] [] =
      (some (Except.ok 1),
        Cache.insert [] (cacheKey ["cardA"] []) ⟨1, 0 + 86400⟩, true) ∧
    wrapper (fun a _ => (Except.ok (if a = ["cardA"] then 1 else 2) :
        Except Unit Nat))
        (Cache.insert [] (cacheKey ["cardA"] []) ⟨1, 0 + 86400⟩) 10
        ["cardB"] [] =
      (some (Except.ok 2),
        Cache.insert (Cache.insert [] (cacheKey ["cardA"] []) ⟨1, 0 + 86400⟩)
          (cacheKey ["cardB"] []) ⟨2, 10 + 86400⟩, true) ∧
    Cache.find?
        (Cache.insert (Cache.insert [] (cacheKey ["cardA"] []) ⟨1, 0 + 86400⟩)
          (cacheKey ["cardB"] []) ⟨2, 10 + 86400⟩)
        (cacheKey ["cardA"] []) = some ⟨1, 0 + 86400⟩ ∧
    Cache.find?
        (Cache.insert (Cache.insert [] (cacheKey ["cardA"] []) ⟨1, 0 + 86400⟩)
          (cacheKey ["cardB"] []) ⟨2, 10 + 86400⟩)
        (cacheKey ["cardB"] []) = some ⟨2, 10 + 86400⟩ :=
  arg_sensitivity (fun a _ => Except.ok (if a = ["cardA"] then 1 else 2))
    0 10 ["cardA"] ["cardB"] [] 1 2 (by decide) rfl rfl

/-- C7.  Cache isolation: each decorator creates its wrapped function with a
fresh empty cache, and in every interleaved call sequence against two
independently wrapped functions each one's final state equals the state
obtained from its own calls alone — the other function's calls (even with
identical argument tuples) never read or modify it. -/
theorem cache_isolation (f : Args → Kwargs → Except E V)
    (g : Args → Kwargs → Except F W) (calls : List SysCall) :
    (commander_cache f).cache = [] ∧
    (combo_cache g).cache = [] ∧
    (runSys (commander_cache f, combo_cache g) calls).1 =
      runOne (commander_cache f) (firstCalls calls) ∧
    (runSys (commander_cache f, combo_cache g) calls).2 =
      runOne (combo_cache g) (secondCalls calls) :=
  ⟨rfl, rfl, (runSys_components calls (commander_cache f, combo_cache g)).1,
    (runSys_components calls (commander_cache f, combo_cache g)).2⟩

/-- C8.  Fixed TTL: any cache entry a call changes (inserted on a miss or
overwritten on an expiry refresh) has its expiry set to exactly
`now + 86400`. -/
theorem fixed_ttl (fn : Args → Kwargs → Except E V) (c : Cache V) (now : Nat)
    (args : Args) (kwargs : Kwargs) (k : CacheKey)
    (hchanged :
      Cache.find? (wrapper fn c now args kwargs).2.1 k ≠ Cache.find? c k) :
    ∃ v, Cache.find? (wrapper fn c now args kwargs).2.1 k =
      some ⟨v, now + 86400⟩ := by
  rcases hfind : Cache.find? c (cacheKey args kwargs) with _ | entry
  · rcases hfn : fn args kwargs with e | v
    · rw [wrapper_miss_error hfind hfn] at hchanged
      exact absurd rfl hchanged
    · rw [wrapper_miss_ok hfind hfn] at hchanged ⊢
      by_cases hk : k = cacheKey args kwargs
      · subst hk
        exact ⟨v, Cache.find?_insert_self c _ _⟩
      · rw [Cache.find?_insert_ne c _ k _ hk] at hchanged
        exact absurd rfl hchanged
  · by_cases hle : entry.expiry ≤ now
    · rcases hfn : fn args kwargs with e | v
      · rw [wrapper_hit_expired_error hfind hle hfn] at hchanged
        exact absurd rfl hchanged
      · rw [wrapper_hit_expired_ok hfind hle hfn] at hchanged ⊢
        by_cases hk : k = cacheKey args kwargs
        · subst hk
          exact ⟨v, Cache.find?_insert_self c _ _⟩
        · rw [Cache.find?_insert_ne c _ k _ hk] at hchanged
          exact absurd rfl hchanged
    · rw [wrapper_hit_fresh hfind (not_le.mp hle)] at hchanged
      exact absurd rfl hchanged

/-- Witness for C8: a miss at `now = 0` creates an entry expiring at
`0 + 86400`. -/
theorem fixed_ttl_witness :
    ∃ v, Cache.find?
      (wrapper (fun _ _ => (Except.ok 5 : Except Unit Nat)) [] 0
        ["ana"] []).2.1 (cacheKey ["ana"] []) = some ⟨v, 0 + 86400⟩ :=
  fixed_ttl (fun _ _ => Except.ok 5) [] 0 ["ana"] [] (cacheKey ["ana"] [])
    (by decide)

/-- C9.  Frame condition: one call changes at most the entry of its own
derived key — every other key reads the same before and after — and never
removes a key, so the key set only grows. -/
theorem frame_condition (fn : Args → Kwargs → Except E V) (c : Cache V)
    (now : Nat) (args : Args) (kwargs : Kwargs) :
    (∀ k, k ≠ cacheKey args kwargs →
      Cache.find? (wrapper fn c now args kwargs).2.1 k = Cache.find? c k) ∧
    (∀ k e, Cache.find? c k = some e →
      ∃ e₂, Cache.find? (wrapper fn c now args kwargs).2.1 k = some e₂) := by
  have hframe : ∀ k, k ≠ cacheKey args kwargs →
      Cache.find? (wrapper fn c now args kwargs).2.1 k = Cache.find? c k := by
    intro k hk
    rcases hfind : Cache.find? c (cacheKey args kwargs) with _ | entry
    · rcases hfn : fn args kwargs with e | v
      · rw [wrapper_miss_error hfind hfn]
      · rw [wrapper_miss_ok hfind hfn]
        exact Cache.find?_insert_ne c _ k _ hk
    · by_cases hle : entry.expiry ≤ now
      · rcases hfn : fn args kwargs with e | v
        · rw [wrapper_hit_expired_error hfind hle hfn]
        · rw [wrapper_hit_expired_ok hfind hle hfn]
          exact Cache.find?_insert_ne c _ k _ hk
      · rw [wrapper_hit_fresh hfind (not_le.mp hle)]
  refine ⟨hframe, ?_⟩
  intro k e hk
  by_cases hkey : k = cacheKey args kwargs
  · subst hkey
    rcases hfn : fn args kwargs with e' | v
    · by_cases hle : e.expiry ≤ now
      · rw [wrapper_hit_expired_error hk hle hfn]
        exact ⟨e, hk⟩
      · rw [wrapper_hit_fresh hk (not_le.mp hle)]
        exact ⟨e, hk⟩
    · by_cases hle : e.expiry ≤ now
      · rw [wrapper_hit_expired_ok hk hle hfn]
        exact ⟨⟨v, now + 86400⟩, Cache.find?_insert_self c _ _⟩
      · rw [wrapper_hit_fresh hk (not_le.mp hle)]
        exact ⟨e, hk⟩
  · rw [hframe k hkey]
    exact ⟨e, hk⟩

/-- Witness for C9: a call on key "ana" leaves the unrelated entry under key
"b" untouched and present. -/
theorem frame_condition_witness :
    Cache.find?
        (wrapper (fun _ _ => (Except.ok 5 : Except Unit Nat))
          [(cacheKey ["b"] [], ⟨1, 10⟩)] 0 ["ana"] []).2.1
        (cacheKey ["b"] []) =
      Cache.find? [(cacheKey ["b"] [], ⟨1, 10⟩)] (cacheKey ["b"] []) ∧
    ∃ e₂, Cache.find?
        (wrapper (fun _ _ => (Except.ok 5 : Except Unit Nat))
          [(cacheKey ["b"] [], ⟨1, 10⟩)] 0 ["ana"] []).2.1
        (cacheKey ["b"] []) = some e₂ :=
  ⟨(frame_condition (fun _ _ => Except.ok 5) [(cacheKey ["b"] [], ⟨1, 10⟩)]
      0 ["ana"] []).1 (cacheKey ["b"] []) (by decide),
   (frame_condition (fun _ _ => Except.ok 5) [(cacheKey ["b"] [], ⟨1, 10⟩)]
      0 ["ana"] []).2 (cacheKey ["b"] []) ⟨1, 10⟩ (by decide)⟩

/-- C10.  No positional/keyword normalization: passing a value positionally
versus by keyword yields different derived keys, so the same logical request
(as bound by `get_commander_data`'s signature) occupies two cache entries and
invokes the underlying function twice. -/
theorem no_signature_normalization :
    cacheKey ["ana", "b1"] [] ≠ cacheKey ["ana"] [("bracket", "b1")] ∧
    (wrapper (fun _ _ => (Except.ok 0 : Except Unit Nat)) [] 0
      ["ana", "b1"] []).2.2 = true ∧
    (wrapper (fun _ _ => (Except.ok 0 : Except Unit Nat))
      (wrapper (fun _ _ => (Except.ok 0 : Except Unit Nat)) [] 0
        ["ana", "b1"] []).2.1 0 ["ana"] [("bracket", "b1")]).2.2 = true ∧
    Cache.find?
      (wrapper (fun _ _ => (Except.ok 0 : Except Unit Nat))
        (wrapper (fun _ _ => (Except.ok 0 : Except Unit Nat)) [] 0
          ["ana", "b1"] []).2.1 0 ["ana"] [("bracket", "b1")]).2.1
      (cacheKey ["ana", "b1"] []) = some ⟨0, 0 + 86400⟩ ∧
    Cache.find?
      (wrapper (fun _ _ => (Except.ok 0 : Except Unit Nat))
        (wrapper (fun _ _ => (Except.ok 0 : Except Unit Nat)) [] 0
          ["ana", "b1"] []).2.1 0 ["ana"] [("bracket", "b1")]).2.1
      (cacheKey ["ana"] [("bracket", "b1")]) = some ⟨0, 0 + 86400⟩ := by
  decide

end Edhrec
